import Mathlib

set_option maxRecDepth 8000

/-!
Verification development for the solana-accounts-observer repository.

The repository's own file (src/main.rs) is a thin command-line front end
over the ledger SDK: it derives program addresses, fetches raw account
buffers, decodes them against fixed binary schemas and prints the result.
The derivation and decoding primitives live in external crates, so they
are modelled here from the specification; the seed lists, the per-step
orchestration of the nft lookup and the argument dispatch are embedded
directly from src/main.rs.
-/

namespace SolObserver

/-- A byte string; ledger identifiers are 32-byte values. -/
abbrev Bytes := List Nat

/-! ## Address derivation (AddressDeriver) -/

/-- Modelled from the spec: the ledger's canonical hashing scheme and the
elliptic-curve point check used by program-address derivation are not part
of this repository (they come from the ledger SDK), so they are taken as
parameters of the derivation. -/
structure LedgerCrypto where
  hash : Bytes → Bytes
  isOnCurve : Bytes → Bool

/-- ASCII bytes of the fixed domain-separation suffix appended to the
hashed material during program-address derivation. -/
def pdaMarkerBytes : Bytes :=
  [80, 114, 111, 103, 114, 97, 109, 68, 101, 114, 105, 118, 101, 100,
   65, 100, 100, 114, 101, 115, 115]

/-- The candidate address for one bump value: the digest of the seed
bytes, the candidate bump byte, the program identifier and the
domain-separation suffix. -/
def pdaCandidate (C : LedgerCrypto) (seeds : List Bytes) (programId : Bytes)
    (bump : Nat) : Bytes :=
  C.hash (seeds.flatten ++ [bump] ++ programId ++ pdaMarkerBytes)

/-- Derivation failure: every bump value produced a curve point. -/
inductive DeriveError where
  | noValidBumpFound
deriving DecidableEq, Repr

/-- Modelled from the spec: the bump search of the ledger SDK's address
derivation. Walks the bump byte downward from the given starting value,
rejecting candidates that are valid curve points. Returns the number of
candidates examined together with the first accepted (address, bump)
pair, or none if every candidate was on the curve. -/
def findBumpFrom (C : LedgerCrypto) (seeds : List Bytes) (programId : Bytes) :
    Nat → Nat × Option (Bytes × Nat)
  | 0 =>
    let c := pdaCandidate C seeds programId 0
    (1, if C.isOnCurve c then none else some (c, 0))
  | b + 1 =>
    let c := pdaCandidate C seeds programId (b + 1)
    if C.isOnCurve c then
      let r := findBumpFrom C seeds programId b
      (r.1 + 1, r.2)
    else
      (1, some (c, b + 1))

/-- Modelled from the spec: `find_program_address` — search bump values
255 down to 0 and return the first off-curve candidate address with its
bump, or a NoValidBumpFound error if there is none. -/
def findProgramAddress (C : LedgerCrypto) (seeds : List Bytes)
    (programId : Bytes) : Except DeriveError (Bytes × Nat) :=
  match (findBumpFrom C seeds programId 255).2 with
  | some r => .ok r
  | none => .error .noValidBumpFound

/-! ### Helper lemmas about the bump search -/

lemma findBumpFrom_some_spec (C : LedgerCrypto) (seeds : List Bytes)
    (programId : Bytes) (b : Nat) (addr : Bytes) (bump : Nat)
    (h : (findBumpFrom C seeds programId b).2 = some (addr, bump)) :
    bump ≤ b ∧ addr = pdaCandidate C seeds programId bump ∧
      C.isOnCurve addr = false ∧
      ∀ b2, bump < b2 → b2 ≤ b →
        C.isOnCurve (pdaCandidate C seeds programId b2) = true := by
  induction b with
  | zero =>
    by_cases hc : C.isOnCurve (pdaCandidate C seeds programId 0) = true
    · simp [findBumpFrom, hc] at h
    · simp [findBumpFrom, hc] at h
      obtain ⟨h1, h2⟩ := h
      subst h2
      refine ⟨le_refl 0, h1.symm, ?_, ?_⟩
      · rw [← h1]
        simp only [Bool.not_eq_true] at hc
        exact hc
      · intro b2 hlt hle
        omega
  | succ b ih =>
    by_cases hc : C.isOnCurve (pdaCandidate C seeds programId (b + 1)) = true
    · simp only [findBumpFrom, hc, if_true] at h
      obtain ⟨hle, haddr, hoff, hall⟩ := ih h
      refine ⟨Nat.le_succ_of_le hle, haddr, hoff, ?_⟩
      intro b2 hlt hle2
      rcases Nat.lt_succ_iff_lt_or_eq.mp (Nat.lt_succ_of_le hle2) with h2 | h2
      · exact hall b2 hlt (Nat.lt_succ_iff.mp h2)
      · rw [h2]; exact hc
    · simp [findBumpFrom, hc] at h
      obtain ⟨h1, h2⟩ := h
      subst h2
      refine ⟨le_refl _, h1.symm, ?_, ?_⟩
      · rw [← h1]
        simp only [Bool.not_eq_true] at hc
        exact hc
      · intro b2 hlt hle2
        omega

lemma findBumpFrom_none_of_all_on_curve (C : LedgerCrypto)
    (seeds : List Bytes) (programId : Bytes) (b : Nat)
    (h : ∀ b2, b2 ≤ b → C.isOnCurve (pdaCandidate C seeds programId b2) = true) :
    (findBumpFrom C seeds programId b).2 = none := by
  induction b with
  | zero =>
    simp [findBumpFrom, h 0 (le_refl 0)]
  | succ b ih =>
    simp only [findBumpFrom, h (b + 1) (le_refl _), if_true]
    exact ih fun b2 hle => h b2 (Nat.le_succ_of_le hle)

lemma findBumpFrom_count_le (C : LedgerCrypto) (seeds : List Bytes)
    (programId : Bytes) (b : Nat) :
    (findBumpFrom C seeds programId b).1 ≤ b + 1 := by
  induction b with
  | zero =>
    simp [findBumpFrom]
  | succ b ih =>
    by_cases hc : C.isOnCurve (pdaCandidate C seeds programId (b + 1)) = true
    · simp only [findBumpFrom, hc, if_true]
      omega
    · simp [findBumpFrom, hc]

/-- A toy instantiation of the ledger crypto used to witness the
derivation theorems on concrete inputs. -/
def toyCrypto : LedgerCrypto where
  hash := fun l => [l.length % 256]
  isOnCurve := fun _ => false

/-- A toy instantiation where every digest is a curve point, witnessing
the exhaustion behaviour. -/
def toyCryptoAllOnCurve : LedgerCrypto where
  hash := fun _ => []
  isOnCurve := fun _ => true

/-! ## Claim theorems about derivation -/

/-- C1: a successful derivation returns the candidate of the first
(highest) bump, walking down from 255, whose digest of seeds, bump,
program identifier and domain-separation suffix is off the curve; every
higher bump's digest is a curve point. -/
theorem derive_scans_descending_bumps (C : LedgerCrypto)
    (seeds : List Bytes) (programId : Bytes) (addr : Bytes) (bump : Nat)
    (h : findProgramAddress C seeds programId = .ok (addr, bump)) :
    bump ≤ 255 ∧ addr = pdaCandidate C seeds programId bump ∧
      C.isOnCurve addr = false ∧
      ∀ b, bump < b → b ≤ 255 →
        C.isOnCurve (pdaCandidate C seeds programId b) = true := by
  unfold findProgramAddress at h
  cases heq : (findBumpFrom C seeds programId 255).2 with
  | none => rw [heq] at h; exact absurd h (by simp)
  | some r =>
    rw [heq] at h
    simp only [Except.ok.injEq] at h
    rw [h] at heq
    exact findBumpFrom_some_spec C seeds programId 255 addr bump heq

/-- Witness for C1 at a concrete crypto, seed set and program id. -/
theorem derive_scans_descending_bumps_witness :
    (255 : Nat) ≤ 255 ∧
      [25] = pdaCandidate toyCrypto [[1, 2]] [3] 255 ∧
      toyCrypto.isOnCurve [25] = false ∧
      ∀ b, 255 < b → b ≤ 255 →
        toyCrypto.isOnCurve (pdaCandidate toyCrypto [[1, 2]] [3] b) = true :=
  derive_scans_descending_bumps toyCrypto [[1, 2]] [3] [25] 255 (by rfl)

/-- C5: the identifier returned by a successful derivation is never a
valid curve point. -/
theorem derive_result_off_curve (C : LedgerCrypto) (seeds : List Bytes)
    (programId : Bytes) (addr : Bytes) (bump : Nat)
    (h : findProgramAddress C seeds programId = .ok (addr, bump)) :
    C.isOnCurve addr = false := by
  unfold findProgramAddress at h
  cases heq : (findBumpFrom C seeds programId 255).2 with
  | none => rw [heq] at h; exact absurd h (by simp)
  | some r =>
    rw [heq] at h
    simp only [Except.ok.injEq] at h
    rw [h] at heq
    exact (findBumpFrom_some_spec C seeds programId 255 addr bump heq).2.2.1

/-- Witness for C5 at a concrete crypto, seed set and program id. -/
theorem derive_result_off_curve_witness :
    toyCrypto.isOnCurve [26] = false :=
  derive_result_off_curve toyCrypto [[1, 2, 9]] [3] [26] 255 (by rfl)

/-- C6: derivation is a deterministic pure function — two invocations on
the same (program id, seeds) return an identical address and bump. -/
theorem derive_deterministic (C : LedgerCrypto) (seeds : List Bytes)
    (programId : Bytes) (r1 r2 : Bytes × Nat)
    (h1 : findProgramAddress C seeds programId = .ok r1)
    (h2 : findProgramAddress C seeds programId = .ok r2) :
    r1.1 = r2.1 ∧ r1.2 = r2.2 := by
  rw [h1] at h2
  simp only [Except.ok.injEq] at h2
  rw [h2]
  exact ⟨rfl, rfl⟩

/-- Witness for C6 at a concrete crypto, seed set and program id. -/
theorem derive_deterministic_witness :
    ([25], 255).1 = (([25], 255) : Bytes × Nat).1 ∧
      ([25], 255).2 = (([25], 255) : Bytes × Nat).2 :=
  derive_deterministic toyCrypto [[1, 2]] [3] ([25], 255) ([25], 255)
    (by rfl) (by rfl)

/-- C9: the bump search examines at most 256 candidates, and when every
candidate is a curve point the derivation returns the NoValidBumpFound
error value rather than diverging or panicking. -/
theorem derive_bounded_and_fails_gracefully (C : LedgerCrypto)
    (seeds : List Bytes) (programId : Bytes) :
    (findBumpFrom C seeds programId 255).1 ≤ 256 ∧
      ((∀ b, b < 256 → C.isOnCurve (pdaCandidate C seeds programId b) = true) →
        findProgramAddress C seeds programId = .error .noValidBumpFound) := by
  constructor
  · exact findBumpFrom_count_le C seeds programId 255
  · intro h
    unfold findProgramAddress
    rw [findBumpFrom_none_of_all_on_curve C seeds programId 255
      (fun b2 hle => h b2 (Nat.lt_succ_of_le hle))]

/-- Witness for C9: with every candidate on the curve the search reports
the error value. -/
theorem derive_bounded_and_fails_gracefully_witness :
    (findBumpFrom toyCryptoAllOnCurve [[0]] [1] 255).1 ≤ 256 ∧
      findProgramAddress toyCryptoAllOnCurve [[0]] [1] =
        .error .noValidBumpFound :=
  ⟨(derive_bounded_and_fails_gracefully toyCryptoAllOnCurve [[0]] [1]).1,
    (derive_bounded_and_fails_gracefully toyCryptoAllOnCurve [[0]] [1]).2
      (fun _ _ => rfl)⟩

/-! ## Record decoding (RecordDecoder) -/

/-- The four record kinds decoded by the tool. -/
inductive RecordKind where
  | mint
  | tokenAccount
  | metadata
  | masterEdition
deriving DecidableEq, Repr

/-- Decoding failures of the record decoder. -/
inductive DecodeError where
  | bufferTooShort
  | bufferTooLong
  | discriminatorMismatch (expected found : Nat)
  | malformedField (detail : String)
deriving DecidableEq, Repr

/-- The decoded record variants. A creator entry is (address, verified
flag, share). -/
inductive TypedRecord where
  | mintRecord (mintAuthority : Option Bytes) (supply : Nat) (decimals : Nat)
      (isInitialized : Bool) (freezeAuthority : Option Bytes)
  | tokenAccountRecord (mint owner : Bytes) (amount : Nat)
      (delegate : Option Bytes) (state : Nat) (isNative : Option Nat)
      (delegatedAmount : Nat) (closeAuthority : Option Bytes)
  | metadataRecord (updateAuthority mintRef : Bytes)
      (name symbol uri : Bytes) (sellerFeeBasisPoints : Nat)
      (creators : Option (List (Bytes × Nat × Nat)))
  | masterEditionRecord (supply : Nat) (maxSupply : Option Nat)
deriving DecidableEq, Repr

/-- The bytes of a buffer from offset off, of the given length. -/
def byteSlice (buf : Bytes) (off len : Nat) : Bytes :=
  (buf.drop off).take len

/-- Little-endian interpretation of len bytes at offset off. -/
def readLE (buf : Bytes) (off len : Nat) : Nat :=
  (byteSlice buf off len).foldr (fun b acc => b + 256 * acc) 0

/-- The ledger-defined size of a mint account buffer. -/
def MINT_LEN : Nat := 82

/-- The ledger-defined size of a token account buffer. -/
def TOKEN_ACCOUNT_LEN : Nat := 165

/-- Discriminator tag of a MetadataV1 record. -/
def metadataV1Tag : Nat := 4

/-- Discriminator tag of a MasterEditionV2 record. -/
def masterEditionV2Tag : Nat := 6

/-- Minimum admissible metadata buffer length: tag, update authority,
mint, three empty length-prefixed strings, the fee and the creators
flag. -/
def MIN_METADATA_LEN : Nat := 80

/-- Maximum admissible metadata buffer length. -/
def MAX_METADATA_LEN : Nat := 679

/-- Minimum admissible master-edition buffer length: tag, supply and the
max-supply flag. -/
def MIN_MASTER_EDITION_LEN : Nat := 10

/-- Maximum admissible master-edition buffer length. -/
def MAX_MASTER_EDITION_LEN : Nat := 282

/-- Modelled from the spec: an optional 32-byte identifier field with a
4-byte present/absent marker; a marker outside the two admitted values
is a malformed field. -/
def decodeCOptionKey (buf : Bytes) (off : Nat) :
    Except DecodeError (Option Bytes) :=
  if byteSlice buf off 4 = [0, 0, 0, 0] then .ok none
  else if byteSlice buf off 4 = [1, 0, 0, 0] then
    .ok (some (byteSlice buf (off + 4) 32))
  else .error (.malformedField "option tag")

/-- Modelled from the spec: an optional 64-bit unsigned field with a
4-byte present/absent marker. -/
def decodeCOptionU64 (buf : Bytes) (off : Nat) :
    Except DecodeError (Option Nat) :=
  if byteSlice buf off 4 = [0, 0, 0, 0] then .ok none
  else if byteSlice buf off 4 = [1, 0, 0, 0] then
    .ok (some (readLE buf (off + 4) 8))
  else .error (.malformedField "option tag")

/-- Modelled from the spec: decoding of a mint account buffer — exact
length, then positional fields (mint authority, supply, decimals,
initialized flag, freeze authority). -/
def decodeMint (buf : Bytes) : Except DecodeError TypedRecord :=
  if buf.length < MINT_LEN then .error .bufferTooShort
  else if MINT_LEN < buf.length then .error .bufferTooLong
  else
    match decodeCOptionKey buf 0 with
    | .error e => .error e
    | .ok mintAuthority =>
      match buf.getD 45 0 with
      | 0 =>
        match decodeCOptionKey buf 46 with
        | .error e => .error e
        | .ok freezeAuthority =>
          .ok (.mintRecord mintAuthority (readLE buf 36 8) (buf.getD 44 0)
            false freezeAuthority)
      | 1 =>
        match decodeCOptionKey buf 46 with
        | .error e => .error e
        | .ok freezeAuthority =>
          .ok (.mintRecord mintAuthority (readLE buf 36 8) (buf.getD 44 0)
            true freezeAuthority)
      | _ => .error (.malformedField "boolean flag")

/-- Modelled from the spec: decoding of a token account buffer — exact
length, then positional fields (mint, owner, amount, delegate, state,
native marker, delegated amount, close authority). -/
def decodeTokenAccount (buf : Bytes) : Except DecodeError TypedRecord :=
  if buf.length < TOKEN_ACCOUNT_LEN then .error .bufferTooShort
  else if TOKEN_ACCOUNT_LEN < buf.length then .error .bufferTooLong
  else
    match decodeCOptionKey buf 72 with
    | .error e => .error e
    | .ok delegate =>
      if 2 < buf.getD 108 0 then .error (.malformedField "account state")
      else
        match decodeCOptionU64 buf 109 with
        | .error e => .error e
        | .ok isNative =>
          match decodeCOptionKey buf 129 with
          | .error e => .error e
          | .ok closeAuthority =>
            .ok (.tokenAccountRecord (byteSlice buf 0 32) (byteSlice buf 32 32)
              (readLE buf 64 8) delegate (buf.getD 108 0) isNative
              (readLE buf 121 8) closeAuthority)

/-- Modelled from the spec: a length-prefixed byte string at offset off;
a declared length past the buffer end is a malformed field. Returns the
bytes and the offset past the field. -/
def decodeSizedBytes (buf : Bytes) (off : Nat) :
    Except DecodeError (Bytes × Nat) :=
  if buf.length < off + 4 then .error (.malformedField "string length")
  else
    let n := readLE buf off 4
    if buf.length < off + 4 + n then .error (.malformedField "string length")
    else .ok (byteSlice buf (off + 4) n, off + 4 + n)

/-- Modelled from the spec: a list of creator entries (32-byte address,
verified flag, share byte) at offset off. -/
def decodeCreatorList (buf : Bytes) (off : Nat) :
    Nat → Except DecodeError (List (Bytes × Nat × Nat))
  | 0 => .ok []
  | n + 1 =>
    if buf.length < off + 34 then .error (.malformedField "creator entry")
    else if 1 < buf.getD (off + 32) 0 then
      .error (.malformedField "boolean flag")
    else
      match decodeCreatorList buf (off + 34) n with
      | .error e => .error e
      | .ok rest =>
        .ok ((byteSlice buf off 32, buf.getD (off + 32) 0,
          buf.getD (off + 33) 0) :: rest)

/-- Modelled from the spec: decoding of a metadata buffer — length range
check, discriminator check against the MetadataV1 tag, then update
authority, mint reference, the three length-prefixed strings, the fee
and the optional creators list. Trailing bytes are tolerated. -/
def decodeMetadata (buf : Bytes) : Except DecodeError TypedRecord :=
  if buf.length < MIN_METADATA_LEN then .error .bufferTooShort
  else if MAX_METADATA_LEN < buf.length then .error .bufferTooLong
  else if buf.getD 0 0 ≠ metadataV1Tag then
    .error (.discriminatorMismatch metadataV1Tag (buf.getD 0 0))
  else
    match decodeSizedBytes buf 65 with
    | .error e => .error e
    | .ok (name, off1) =>
      match decodeSizedBytes buf off1 with
      | .error e => .error e
      | .ok (symbol, off2) =>
        match decodeSizedBytes buf off2 with
        | .error e => .error e
        | .ok (uri, off3) =>
          if buf.length < off3 + 3 then .error (.malformedField "metadata tail")
          else
            match buf.getD (off3 + 2) 0 with
            | 0 =>
              .ok (.metadataRecord (byteSlice buf 1 32) (byteSlice buf 33 32)
                name symbol uri (readLE buf off3 2) none)
            | 1 =>
              if buf.length < off3 + 7 then
                .error (.malformedField "creators length")
              else
                match decodeCreatorList buf (off3 + 7)
                    (readLE buf (off3 + 3) 4) with
                | .error e => .error e
                | .ok creators =>
                  .ok (.metadataRecord (byteSlice buf 1 32)
                    (byteSlice buf 33 32) name symbol uri (readLE buf off3 2)
                    (some creators))
            | _ => .error (.malformedField "option flag")

/-- Modelled from the spec: decoding of a master-edition buffer — length
range check, discriminator check against the MasterEditionV2 tag, then
the supply and the optional max supply. -/
def decodeMasterEdition (buf : Bytes) : Except DecodeError TypedRecord :=
  if buf.length < MIN_MASTER_EDITION_LEN then .error .bufferTooShort
  else if MAX_MASTER_EDITION_LEN < buf.length then .error .bufferTooLong
  else if buf.getD 0 0 ≠ masterEditionV2Tag then
    .error (.discriminatorMismatch masterEditionV2Tag (buf.getD 0 0))
  else
    match buf.getD 9 0 with
    | 0 => .ok (.masterEditionRecord (readLE buf 1 8) none)
    | 1 =>
      if buf.length < 18 then .error (.malformedField "max supply")
      else .ok (.masterEditionRecord (readLE buf 1 8) (some (readLE buf 10 8)))
    | _ => .error (.malformedField "option flag")

/-- The record decoder, dispatching on the expected record kind. -/
def decode : RecordKind → Bytes → Except DecodeError TypedRecord
  | .mint, buf => decodeMint buf
  | .tokenAccount, buf => decodeTokenAccount buf
  | .metadata, buf => decodeMetadata buf
  | .masterEdition, buf => decodeMasterEdition buf

/-- The minimum admissible buffer length of each record kind. -/
def minLen : RecordKind → Nat
  | .mint => MINT_LEN
  | .tokenAccount => TOKEN_ACCOUNT_LEN
  | .metadata => MIN_METADATA_LEN
  | .masterEdition => MIN_MASTER_EDITION_LEN

/-- An 82-byte buffer carrying a 64-bit value 7 at offset 64, the layout
the spec's scenario 2 describes for a token account. -/
def tokenAccount82 : Bytes :=
  List.replicate 64 0 ++ [7, 0, 0, 0, 0, 0, 0, 0] ++ List.replicate 10 0

/-- A 165-byte buffer carrying a 64-bit value 7 at offset 64 with all
option markers absent and state zero. -/
def tokenAccount165 : Bytes :=
  List.replicate 64 0 ++ [7, 0, 0, 0, 0, 0, 0, 0] ++ List.replicate 93 0

/-! ## Claim theorems about decoding -/

/-- C3: a buffer of admissible metadata length whose first byte is the
MasterEdition discriminator tag is rejected with a discriminator
mismatch and never decodes as a Metadata record. -/
theorem metadata_discriminator_enforced (buf : Bytes)
    (hmin : MIN_METADATA_LEN ≤ buf.length)
    (hmax : buf.length ≤ MAX_METADATA_LEN)
    (htag : buf.getD 0 0 = masterEditionV2Tag) :
    decode .metadata buf =
      .error (.discriminatorMismatch metadataV1Tag masterEditionV2Tag) := by
  simp only [decode, decodeMetadata]
  rw [if_neg (Nat.not_lt.mpr hmin), if_neg (Nat.not_lt.mpr hmax), htag,
    if_pos (by decide)]

/-- Witness for C3 at a concrete 80-byte buffer tagged as a master
edition. -/
theorem metadata_discriminator_enforced_witness :
    decode .metadata (masterEditionV2Tag :: List.replicate 79 0) =
      .error (.discriminatorMismatch metadataV1Tag masterEditionV2Tag) :=
  metadata_discriminator_enforced (masterEditionV2Tag :: List.replicate 79 0)
    (by decide) (by decide) (by decide)

/-- C7: for every record kind, a buffer one byte shorter than the kind's
minimum admissible length is rejected with BufferTooShort. -/
theorem short_buffer_rejected (k : RecordKind) (buf : Bytes)
    (h : buf.length + 1 = minLen k) :
    decode k buf = .error .bufferTooShort := by
  cases k with
  | mint =>
    have hlt : buf.length < MINT_LEN := by
      simp only [minLen] at h; omega
    simp only [decode, decodeMint]
    rw [if_pos hlt]
  | tokenAccount =>
    have hlt : buf.length < TOKEN_ACCOUNT_LEN := by
      simp only [minLen] at h; omega
    simp only [decode, decodeTokenAccount]
    rw [if_pos hlt]
  | metadata =>
    have hlt : buf.length < MIN_METADATA_LEN := by
      simp only [minLen] at h; omega
    simp only [decode, decodeMetadata]
    rw [if_pos hlt]
  | masterEdition =>
    have hlt : buf.length < MIN_MASTER_EDITION_LEN := by
      simp only [minLen] at h; omega
    simp only [decode, decodeMasterEdition]
    rw [if_pos hlt]

/-- Witness for C7 at the mint kind with an 81-byte buffer. -/
theorem short_buffer_rejected_witness :
    decode .mint (List.replicate 81 0) = .error .bufferTooShort :=
  short_buffer_rejected .mint (List.replicate 81 0) (by decide)

/-- C8 counterexample: an 82-byte buffer carrying a 64-bit amount at the
token-account amount offset does not decode as a token account — the
token-account schema is 165 bytes, so the decode fails with
BufferTooShort instead of succeeding. -/
theorem tokenAccount_82_bytes_rejected :
    tokenAccount82.length = 82 ∧
      readLE tokenAccount82 64 8 = 7 ∧
      decode .tokenAccount tokenAccount82 = .error .bufferTooShort :=
  ⟨by decide, by decide, by rfl⟩

/-- C8 as amended: a 165-byte buffer with admissible option markers and
state byte decodes as a token account whose amount field is the 64-bit
little-endian value at offset 64. -/
theorem tokenAccount_decode_amount (buf : Bytes)
    (hlen : buf.length = TOKEN_ACCOUNT_LEN)
    (hdel : byteSlice buf 72 4 = [0, 0, 0, 0] ∨
      byteSlice buf 72 4 = [1, 0, 0, 0])
    (hstate : buf.getD 108 0 ≤ 2)
    (hnat : byteSlice buf 109 4 = [0, 0, 0, 0] ∨
      byteSlice buf 109 4 = [1, 0, 0, 0])
    (hclose : byteSlice buf 129 4 = [0, 0, 0, 0] ∨
      byteSlice buf 129 4 = [1, 0, 0, 0]) :
    ∃ delegate isNative closeAuthority,
      decode .tokenAccount buf =
        .ok (.tokenAccountRecord (byteSlice buf 0 32) (byteSlice buf 32 32)
          (readLE buf 64 8) delegate (buf.getD 108 0) isNative
          (readLE buf 121 8) closeAuthority) := by
  have h0 : ¬ buf.length < TOKEN_ACCOUNT_LEN := by rw [hlen]; exact Nat.lt_irrefl _
  have h0b : ¬ TOKEN_ACCOUNT_LEN < buf.length := by rw [hlen]; exact Nat.lt_irrefl _
  have hst : ¬ 2 < buf[108]?.getD 0 := by
    simpa using Nat.not_lt.mpr hstate
  rcases hdel with h1 | h1 <;> rcases hnat with h2 | h2 <;>
    rcases hclose with h3 | h3
  · refine ⟨none, none, none, ?_⟩
    simp [decode, decodeTokenAccount, decodeCOptionKey, decodeCOptionU64,
      h0, h0b, hst, h1, h2, h3]
  · refine ⟨none, none, some (byteSlice buf 133 32), ?_⟩
    simp [decode, decodeTokenAccount, decodeCOptionKey, decodeCOptionU64,
      h0, h0b, hst, h1, h2, h3]
  · refine ⟨none, some (readLE buf 113 8), none, ?_⟩
    simp [decode, decodeTokenAccount, decodeCOptionKey, decodeCOptionU64,
      h0, h0b, hst, h1, h2, h3]
  · refine ⟨none, some (readLE buf 113 8), some (byteSlice buf 133 32), ?_⟩
    simp [decode, decodeTokenAccount, decodeCOptionKey, decodeCOptionU64,
      h0, h0b, hst, h1, h2, h3]
  · refine ⟨some (byteSlice buf 76 32), none, none, ?_⟩
    simp [decode, decodeTokenAccount, decodeCOptionKey, decodeCOptionU64,
      h0, h0b, hst, h1, h2, h3]
  · refine ⟨some (byteSlice buf 76 32), none, some (byteSlice buf 133 32), ?_⟩
    simp [decode, decodeTokenAccount, decodeCOptionKey, decodeCOptionU64,
      h0, h0b, hst, h1, h2, h3]
  · refine ⟨some (byteSlice buf 76 32), some (readLE buf 113 8), none, ?_⟩
    simp [decode, decodeTokenAccount, decodeCOptionKey, decodeCOptionU64,
      h0, h0b, hst, h1, h2, h3]
  · refine ⟨some (byteSlice buf 76 32), some (readLE buf 113 8),
      some (byteSlice buf 133 32), ?_⟩
    simp [decode, decodeTokenAccount, decodeCOptionKey, decodeCOptionU64,
      h0, h0b, hst, h1, h2, h3]

/-- Witness for the amended C8 at a concrete 165-byte buffer with amount
7. -/
theorem tokenAccount_decode_amount_witness :
    ∃ delegate isNative closeAuthority,
      decode .tokenAccount tokenAccount165 =
        .ok (.tokenAccountRecord (byteSlice tokenAccount165 0 32)
          (byteSlice tokenAccount165 32 32) (readLE tokenAccount165 64 8)
          delegate (tokenAccount165.getD 108 0) isNative
          (readLE tokenAccount165 121 8) closeAuthority) :=
  tokenAccount_decode_amount tokenAccount165 (by decide) (by decide)
    (by decide) (by decide) (by decide)

/-! ## The nft lookup (show_nft in src/main.rs) -/

/-- The 32 bytes of the fixed metadata program identifier
(metaqbxxUerdq28cj1RbAWkYQm3ybzjb6a8bt518x1s). -/
def metadataProgramId : Bytes :=
  [11, 112, 101, 177, 227, 209, 124, 69, 56, 157, 82, 127, 107, 4, 195, 205,
   88, 184, 108, 115, 26, 160, 253, 181, 73, 182, 209, 188, 3, 248, 41, 70]

/-- ASCII bytes of the seed literal "metadata". -/
def metadataSeedBytes : Bytes := [109, 101, 116, 97, 100, 97, 116, 97]

/-- ASCII bytes of the seed literal "edition". -/
def editionSeedBytes : Bytes := [101, 100, 105, 116, 105, 111, 110]

/-- The master-edition seed list as built in show_nft: the "metadata"
literal, the metadata program id, the mint address and the "edition"
literal, in that order. -/
def meKeySeeds (mintAddress : Bytes) : List Bytes :=
  [metadataSeedBytes, metadataProgramId, mintAddress, editionSeedBytes]

/-- The metadata seed list as built in show_nft: the "metadata" literal,
the metadata program id and the mint address, in that order. -/
def metaKeySeeds (mintAddress : Bytes) : List Bytes :=
  [metadataSeedBytes, metadataProgramId, mintAddress]

/-- The master-edition key derivation performed by show_nft. -/
def deriveEditionKey (C : LedgerCrypto) (mintAddress : Bytes) :
    Except DeriveError (Bytes × Nat) :=
  findProgramAddress C (meKeySeeds mintAddress) metadataProgramId

/-- The metadata key derivation performed by show_nft. -/
def deriveMetadataKey (C : LedgerCrypto) (mintAddress : Bytes) :
    Except DeriveError (Bytes × Nat) :=
  findProgramAddress C (metaKeySeeds mintAddress) metadataProgramId

/-- The metadata seed set exactly as the spec writes it:
["metadata", program id, mint]. -/
def specMetadataSeeds (mintAddress : Bytes) : List Bytes :=
  [[109, 101, 116, 97, 100, 97, 116, 97], metadataProgramId, mintAddress]

/-- The edition seed set exactly as the spec writes it:
["metadata", program id, mint, "edition"]. -/
def specEditionSeeds (mintAddress : Bytes) : List Bytes :=
  [[109, 101, 116, 97, 100, 97, 116, 97], metadataProgramId, mintAddress,
   [101, 100, 105, 116, 105, 111, 110]]

/-- The sub-step of the nft lookup at which an abort happened. -/
inductive NftStep where
  | mintFetch
  | mintDecode
  | editionDerive
  | editionFetch
  | editionDecode
  | metadataDerive
  | metadataFetch
  | metadataDecode
deriving DecidableEq, Repr

/-- The tagged abort of the nft lookup: the failing sub-step and the
address it was acting on. -/
structure NftError where
  step : NftStep
  address : Bytes
deriving DecidableEq, Repr

/-- The environment of the lookup: the ledger crypto primitives and the
external fetch collaborator (get_account_data). -/
structure Env where
  crypto : LedgerCrypto
  fetch : Bytes → Except String Bytes

/-- The nft lookup as written in show_nft: fetch and decode the mint and
print it, derive the master-edition key, fetch and decode it and print
it, derive the metadata key, fetch and decode it and print it. The first
component collects the records printed so far; the second is the abort,
if any — in the source each failing step terminates the process via
unwrap, so everything printed before the failure has already been
emitted. -/
def showNft (env : Env) (mintAddress : Bytes) :
    List TypedRecord × Option NftError :=
  match env.fetch mintAddress with
  | .error _ => ([], some ⟨.mintFetch, mintAddress⟩)
  | .ok accData =>
    match decode .mint accData with
    | .error _ => ([], some ⟨.mintDecode, mintAddress⟩)
    | .ok mintData =>
      match deriveEditionKey env.crypto mintAddress with
      | .error _ => ([mintData], some ⟨.editionDerive, mintAddress⟩)
      | .ok (meKey, _) =>
        match env.fetch meKey with
        | .error _ => ([mintData], some ⟨.editionFetch, meKey⟩)
        | .ok meData =>
          match decode .masterEdition meData with
          | .error _ => ([mintData], some ⟨.editionDecode, meKey⟩)
          | .ok meRecord =>
            match deriveMetadataKey env.crypto mintAddress with
            | .error _ =>
              ([mintData, meRecord], some ⟨.metadataDerive, mintAddress⟩)
            | .ok (metaKey, _) =>
              match env.fetch metaKey with
              | .error _ => ([mintData, meRecord], some ⟨.metadataFetch, metaKey⟩)
              | .ok metaBuf =>
                match decode .metadata metaBuf with
                | .error _ =>
                  ([mintData, meRecord], some ⟨.metadataDecode, metaKey⟩)
                | .ok metaRecord => ([mintData, meRecord, metaRecord], none)

/-- A concrete environment in which the mint account exists and decodes
but the derived master-edition account does not exist: the fetch knows
only the mint address. -/
def envPartial : Env where
  crypto := toyCrypto
  fetch := fun a =>
    if a = List.replicate 32 2 then .ok (List.replicate 82 0)
    else .error "account not found"

/-! ## Claim theorems about the nft lookup -/

/-- C4: show_nft derives the metadata key from the seeds
["metadata", program id, mint] and the master-edition key from
["metadata", program id, mint, "edition"], both against the fixed
metadata program identifier, in exactly the spec's seed order. -/
theorem nft_seed_sets (C : LedgerCrypto) (mintAddress : Bytes) :
    metaKeySeeds mintAddress = specMetadataSeeds mintAddress ∧
      meKeySeeds mintAddress = specEditionSeeds mintAddress ∧
      deriveMetadataKey C mintAddress =
        findProgramAddress C (specMetadataSeeds mintAddress)
          metadataProgramId ∧
      deriveEditionKey C mintAddress =
        findProgramAddress C (specEditionSeeds mintAddress)
          metadataProgramId :=
  ⟨rfl, rfl, rfl, rfl⟩

/-- C2 counterexample: in envPartial the mint sub-step succeeds and the
master-edition fetch fails, so the lookup aborts with an error while the
mint record has already been emitted — a partial view is emitted. -/
theorem showNft_partial_emission :
    (showNft envPartial (List.replicate 32 2)).2 =
      some ⟨.editionFetch, [133]⟩ ∧
      (showNft envPartial (List.replicate 32 2)).1 =
        [.mintRecord none 0 0 false none] := by
  constructor
  · rfl
  · rfl

/-- C2 as amended: the nft lookup aborts at the first failing sub-step
with exactly one tagged error naming the sub-step and its address; it
emits the full three-record view exactly when no step fails, and on a
failure only the records decoded before the failing step (strictly
fewer than three) have been emitted. -/
theorem showNft_aborts_at_first_failure (env : Env) (mintAddress : Bytes) :
    ((showNft env mintAddress).2 = none ↔
      (showNft env mintAddress).1.length = 3) ∧
      (∀ e, (showNft env mintAddress).2 = some e →
        (showNft env mintAddress).1.length < 3) := by
  unfold showNft
  repeat' split
  all_goals simp

/-- Witness for the amended C2 at the concrete environment where the
master-edition fetch fails. -/
theorem showNft_aborts_at_first_failure_witness :
    ((showNft envPartial (List.replicate 32 2)).2 = none ↔
      (showNft envPartial (List.replicate 32 2)).1.length = 3) ∧
      (showNft envPartial (List.replicate 32 2)).1.length < 3 :=
  ⟨(showNft_aborts_at_first_failure envPartial (List.replicate 32 2)).1,
    (showNft_aborts_at_first_failure envPartial (List.replicate 32 2)).2
      ⟨.editionFetch, [133]⟩ (by rfl)⟩

/-! ## Argument dispatch (main in src/main.rs) -/

/-- The configuration of a command-line argument as assembled by the
builder calls in main. -/
structure ArgConfig where
  name : String
  valueName : String
  takesValue : Bool
  required : Bool
deriving DecidableEq, Repr

/-- The address argument as configured for each of the five subcommands
in main: name "address", value name "PUBKEY", takes a value; required is
never set and so keeps its default of false. -/
def addressArg : ArgConfig where
  name := "address"
  valueName := "PUBKEY"
  takesValue := true
  required := false

/-- The outcome of the dispatch at the end of main. -/
inductive MainOutcome where
  | ran (subcommand : String) (address : String)
  | panicked
deriving DecidableEq, Repr

/-- The subcommand dispatch at the end of main: each arm reads the
address argument value and unwraps it, so a missing value panics; the
catch-all arm is the unreachable panic. -/
def dispatch (subcommand : String) (address : Option String) : MainOutcome :=
  match subcommand with
  | "mint" =>
    match address with
    | some a => .ran "mint" a
    | none => .panicked
  | "account" =>
    match address with
    | some a => .ran "account" a
    | none => .panicked
  | "metadata" =>
    match address with
    | some a => .ran "metadata" a
    | none => .panicked
  | "master-edition" =>
    match address with
    | some a => .ran "master-edition" a
    | none => .panicked
  | "nft" =>
    match address with
    | some a => .ran "nft" a
    | none => .panicked
  | _ => .panicked

/-- C10: the address argument is not marked required, and every one of
the five subcommands panics on the unwrap when the address argument is
absent. -/
theorem missing_address_panics (sub : String)
    (h : sub ∈ ["mint", "account", "metadata", "master-edition", "nft"]) :
    addressArg.required = false ∧ dispatch sub none = .panicked := by
  refine ⟨rfl, ?_⟩
  fin_cases h <;> rfl

/-- Witness for C10 at the mint subcommand. -/
theorem missing_address_panics_witness :
    addressArg.required = false ∧ dispatch "mint" none = .panicked :=
  missing_address_panics "mint" (by simp)

end SolObserver
